import Mathlib

/-!
Shallow embedding of the Synthizer audio engine core (the parts named by the
claims): the biquad filter component (`src/src/biquad.cpp`), the filter design
C API (`src/unnamed/part_000`), the property dispatcher
(`src/unnamed/part_002`, the `property_impl.hpp` X-macro expansion), and the
`Source` generator-list / `fillBlock` logic (the second translation unit of
`src/src/biquad.cpp`, i.e. `sources.cpp`).

Machine floats are modelled as rationals: every arithmetic operation the
claims touch (linear blends with weights `i / 256`, comparisons against
property ranges) is exact in the float domain at the inputs used, so ℚ is a
faithful carrier for the questions asked here.

Components whose bodies are not in the repository snapshot (the
`IIRFilter::tick` kernel, `mixChannels`, the fade driver, the pausable
mixin's tick) are carried as explicit function parameters: the code under
analysis uses them only through their call signature, and the theorems
quantify over them.
-/

set_option autoImplicit false

namespace Synthizer

namespace config

/-- Constant `config::SR` from `config.hpp` (`src/unnamed/part_003`). -/
def SR : ℚ := 44100

/-- Constant `config::BLOCK_SIZE` from `config.hpp`. -/
def BLOCK_SIZE : Nat := 256

/-- Constant `config::MAX_CHANNELS` from `config.hpp`. -/
def MAX_CHANNELS : Nat := 16

end config

/-- Structure `BiquadFilterDef` as used by `biquad.cpp` and `filter_design.hpp`:
`num_coefs[3]`, `den_coefs[2]` (denominator normalised, `a0` implicit), and
a `gain`. -/
structure BiquadFilterDef where
  num_coefs0 : ℚ
  num_coefs1 : ℚ
  num_coefs2 : ℚ
  den_coefs0 : ℚ
  den_coefs1 : ℚ
  gain : ℚ
deriving DecidableEq, Repr

/-- Structure `syz_BiquadConfig` from the public header. -/
structure syz_BiquadConfig where
  b0 : ℚ
  b1 : ℚ
  b2 : ℚ
  a1 : ℚ
  a2 : ℚ
  gain : ℚ
deriving DecidableEq, Repr

/-- Function `convertBiquadDef` from the filter-property C API file
(`src/unnamed/part_000`): internal `BiquadFilterDef` to external
`syz_BiquadConfig`, field by field. -/
def convertBiquadDef (def_ : BiquadFilterDef) : syz_BiquadConfig :=
  { b0 := def_.num_coefs0
    b1 := def_.num_coefs1
    b2 := def_.num_coefs2
    a1 := def_.den_coefs0
    a2 := def_.den_coefs1
    gain := def_.gain }

/-- Function `syz_designBiquadLowpass` from `src/unnamed/part_000`:
`*filter = convertBiquadDef(designAudioEqLowpass(frequency / config::SR, q))`.
The body of `designAudioEqLowpass` lives in `filter_design.hpp`, which is not
in the snapshot; per the spec it is a pure function of the normalised
frequency and `q`, so it is taken as an explicit function parameter. -/
def syz_designBiquadLowpass (designAudioEqLowpass : ℚ → ℚ → BiquadFilterDef)
    (frequency q : ℚ) : syz_BiquadConfig :=
  convertBiquadDef (designAudioEqLowpass (frequency / config.SR) q)

/-!
### ConcreteBiquadFilter (`src/src/biquad.cpp`)

The filter pair is `std::array<IIRFilter<CHANNELS, 3, 3>, 2> filters` plus a
`crossfade` flag and an `active` index.  `IIRFilter` internals are not in the
snapshot; the biquad code uses only `tick(in_frame, out_frame)` (which SETS
the output frame, per the comment in `processBlockImpl`) and
`setParameters(def)`.  We therefore parametrise over a filter state type `σ`
with `tick : σ → List ℚ → σ × List ℚ` and
`setParameters : σ → BiquadFilterDef → σ`; both filters share them, as both
are the same C++ type.

`active` is an `unsigned char` that is only ever `0` or `1` and only mutated
by `active ^= 1`; it is embedded as a `Bool` (`false` ↔ `0`) with `active ^= 1`
as negation.

A frame is a `List ℚ` of length CHANNELS; a block is a `List (List ℚ)` of
`BLOCK_SIZE` frames.
-/

/-- State of `ConcreteBiquadFilter<CHANNELS>`: the two `IIRFilter`s, the
crossfade flag and the active index. -/
structure ConcreteBiquadFilter (σ : Type) where
  filters0 : σ
  filters1 : σ
  crossfade : Bool
  active : Bool
deriving DecidableEq, Repr

namespace ConcreteBiquadFilter

variable {σ : Type}

/-- Selects `this->filters[this->active]`. -/
def activeFilter (s : ConcreteBiquadFilter σ) : σ :=
  if s.active then s.filters1 else s.filters0

/-- Selects `this->filters[this->active ^ 1]`. -/
def inactiveFilter (s : ConcreteBiquadFilter σ) : σ :=
  if s.active then s.filters0 else s.filters1

/-- Write back the (active, inactive) pair into the array slots. -/
def setFilters (s : ConcreteBiquadFilter σ) (act inact : σ) :
    ConcreteBiquadFilter σ :=
  if s.active then { s with filters1 := act, filters0 := inact }
  else { s with filters0 := act, filters1 := inact }

/-- Method `ConcreteBiquadFilter::configure`: build a `BiquadFilterDef` from the
`syz_BiquadConfig`, `setParameters` on `filters[active ^ 1]`, set
`crossfade = true`. -/
def configure (setParameters : σ → BiquadFilterDef → σ)
    (s : ConcreteBiquadFilter σ) (cfg : syz_BiquadConfig) :
    ConcreteBiquadFilter σ :=
  let def_ : BiquadFilterDef :=
    { num_coefs0 := cfg.b0
      num_coefs1 := cfg.b1
      num_coefs2 := cfg.b2
      den_coefs0 := cfg.a1
      den_coefs1 := cfg.a2
      gain := cfg.gain }
  let s1 :=
    if s.active then { s with filters0 := setParameters s.filters0 def_ }
    else { s with filters1 := setParameters s.filters1 def_ }
  { s1 with crossfade := true }

/-- One iteration of the sample loop of
`ConcreteBiquadFilter::processBlockImpl<ADD, CROSSFADE>` at sample index `i`.

Faithful to the source, including the aliasing of `out_frame`:
`out_frame = ADD || CROSSFADE ? out + CHANNELS * i : &tmp[0]`, so when
`ADD || CROSSFADE` the active filter's `tick` OVERWRITES the output frame
(its prior contents are lost), and otherwise the active output lands in the
local `tmp` buffer, which is then discarded because the final copy-out runs
only `if (CROSSFADE || ADD)`.

Arguments: the channel count, `tick`, the template booleans, the sample
index, the two filter states (active first), the input frame and the output
frame's prior contents.  Returns the output frame's new contents and the two
updated filter states. -/
def processFrame (channels : Nat) (tick : σ → List ℚ → σ × List ℚ)
    (ADD CROSSFADE : Bool) (i : Nat) (sa si : σ)
    (in_frame out_prev : List ℚ) : List ℚ × σ × σ :=
  let gain_inv : ℚ := 1 / (config.BLOCK_SIZE : ℚ)
  let out_use : Bool := ADD || CROSSFADE
  let ta := tick sa in_frame
  let sa' := ta.1
  -- contents of `tmp` after the active tick: zeros unless tick went to tmp
  let tmp0 : List ℚ :=
    if out_use then List.replicate channels 0 else ta.2
  -- contents of `out + CHANNELS * i` after the active tick
  let out_after : List ℚ := if out_use then ta.2 else out_prev
  if CROSSFADE then
    let ti := tick si in_frame
    let si' := ti.1
    let w2 : ℚ := (i : ℚ) * gain_inv
    let w1 : ℚ := 1 - w2
    let tmp1 := List.zipWith (fun cf t => cf * w1 + t * w2) ti.2 tmp0
    let res := if ADD then List.zipWith (· + ·) out_after tmp1 else tmp1
    (res, sa', si')
  else
    if ADD then
      (List.zipWith (· + ·) out_after tmp0, sa', si)
    else
      (out_after, sa', si)

/-- The `for (i = 0; i < BLOCK_SIZE; i++)` loop of `processBlockImpl`,
running over the zipped (input frame, prior output frame) list starting at
sample index `i`. -/
def processLoop (channels : Nat) (tick : σ → List ℚ → σ × List ℚ)
    (ADD CROSSFADE : Bool) : Nat → σ → σ → List (List ℚ × List ℚ) →
    List (List ℚ) × σ × σ
  | _, sa, si, [] => ([], sa, si)
  | i, sa, si, fr :: rest =>
    let step := processFrame channels tick ADD CROSSFADE i sa si fr.1 fr.2
    let tail := processLoop channels tick ADD CROSSFADE (i + 1) step.2.1 step.2.2 rest
    (step.1 :: tail.1, tail.2)

/-- Method `ConcreteBiquadFilter::processBlockImpl<ADD, CROSSFADE>`: run the sample
loop with `filters[active]` as the active filter and `filters[active ^ 1]`
as the inactive one, then store the updated filter states back.  The flag
and the active index are untouched here. -/
def processBlockImpl (channels : Nat) (tick : σ → List ℚ → σ × List ℚ)
    (ADD CROSSFADE : Bool) (s : ConcreteBiquadFilter σ)
    (input out_prev : List (List ℚ)) :
    List (List ℚ) × ConcreteBiquadFilter σ :=
  let r := processLoop channels tick ADD CROSSFADE 0
    s.activeFilter s.inactiveFilter (input.zip out_prev)
  (r.1, s.setFilters r.2.1 r.2.2)

/-- Method `ConcreteBiquadFilter::processBlock(in, out, add)`.

Every branch of the `if (add)` dispatch `return`s, so the trailing
`if (this->crossfade) { this->crossfade = false; this->active ^= 1; }`
block (lines 65–72 of `biquad.cpp`) is unreachable and consequently absent
from this embedding.  Note the `add == false` arm: both the
`crossfade == true` and the `crossfade == false` cases call
`processBlockImpl<false, true>` (the fall-through at line 61 of the
source). -/
def processBlock (channels : Nat) (tick : σ → List ℚ → σ × List ℚ)
    (s : ConcreteBiquadFilter σ) (input out_prev : List (List ℚ))
    (add : Bool) : List (List ℚ) × ConcreteBiquadFilter σ :=
  if add then
    if s.crossfade then processBlockImpl channels tick true true s input out_prev
    else processBlockImpl channels tick true false s input out_prev
  else
    if s.crossfade then processBlockImpl channels tick false true s input out_prev
    else processBlockImpl channels tick false true s input out_prev

end ConcreteBiquadFilter

end Synthizer

namespace Synthizer

namespace ConcreteBiquadFilter

variable {σ : Type}

/-- Claim-side definition (C2's wording): the output of the non-crossfading,
non-adding implementation — apply only the active filter to the input,
frame by frame, with no blend contribution from the inactive filter. -/
def activeOnlyOutput (tick : σ → List ℚ → σ × List ℚ) :
    σ → List (List ℚ) → List (List ℚ)
  | _, [] => []
  | sa, f :: rest => (tick sa f).2 :: activeOnlyOutput tick (tick sa f).1 rest

/-- Claim-side definition (C4's wording): during the crossfade block, frame
`i` is `(1 - i/BLOCK_SIZE) * inactive_output + (i/BLOCK_SIZE) * active_output`
(both filters fed the same input, states threaded). -/
def crossfadeBlendOutput (tick : σ → List ℚ → σ × List ℚ) :
    Nat → σ → σ → List (List ℚ) → List (List ℚ)
  | _, _, _, [] => []
  | i, sa, si, f :: rest =>
    let a := tick sa f
    let b := tick si f
    let w2 : ℚ := (i : ℚ) / (config.BLOCK_SIZE : ℚ)
    List.zipWith (fun ia aa => (1 - w2) * ia + w2 * aa) b.2 a.2 ::
      crossfadeBlendOutput tick (i + 1) a.1 b.1 rest

/-- A concrete `IIRFilter` instantiation for counterexample states: the state
is a `Bool` parameter, `true` behaving as a wire (output = input) and `false`
as the all-zero filter.  Both satisfy the only contract `biquad.cpp` relies
on: `tick` sets its output frame. -/
def tkTest : Bool → List ℚ → Bool × List ℚ :=
  fun p x => (p, if p then x else x.map (fun _ => 0))

/-- A block of BLOCK_SIZE mono frames holding the constant 1. -/
def onesIn : List (List ℚ) := List.replicate 256 [1]

/-- A zeroed mono output block. -/
def zerosOut : List (List ℚ) := List.replicate 256 [0]

/-- Concrete filter state: active side (index 0) is the wire, inactive side
the zero filter, crossfade flag clear. -/
def sNoCF : ConcreteBiquadFilter Bool :=
  { filters0 := true, filters1 := false, crossfade := false, active := false }

/-- Same filter pair with the crossfade flag set (the state `configure`
leaves behind). -/
def sCF : ConcreteBiquadFilter Bool :=
  { filters0 := true, filters1 := false, crossfade := true, active := false }

lemma processBlockImpl_crossfade_active (channels : Nat)
    (tick : σ → List ℚ → σ × List ℚ) (A C : Bool)
    (s : ConcreteBiquadFilter σ) (input out_prev : List (List ℚ)) :
    (processBlockImpl channels tick A C s input out_prev).2.crossfade = s.crossfade ∧
    (processBlockImpl channels tick A C s input out_prev).2.active = s.active := by
  simp only [processBlockImpl, setFilters]
  split <;> simp

lemma processLoop_wire_zero (n i : Nat) :
    processLoop 1 tkTest false true i true false
      (List.replicate n ([1], [0])) = (List.replicate n [0], true, false) := by
  induction n generalizing i with
  | zero => simp [processLoop]
  | succ n ih =>
    rw [List.replicate_succ]
    simp only [processLoop, processFrame, tkTest]
    simp [ih, List.replicate_succ]

lemma zip_ones_zeros : onesIn.zip zerosOut = List.replicate 256 ([1], [0]) := by
  rw [onesIn, zerosOut, List.zip_replicate']

lemma activeOnly_wire (n : Nat) :
    activeOnlyOutput tkTest true (List.replicate n [1]) =
      List.replicate n [1] := by
  induction n with
  | zero => simp [activeOnlyOutput]
  | succ n ih =>
    rw [List.replicate_succ]
    simp [activeOnlyOutput, tkTest, ih, List.replicate_succ]

lemma blend_wire_zero (n i : Nat) :
    crossfadeBlendOutput tkTest i true false (List.replicate n [1]) =
      (List.range n).map (fun k : Nat => [(((i + k : Nat)) : ℚ) / 256]) := by
  induction n generalizing i with
  | zero => simp [crossfadeBlendOutput]
  | succ n ih =>
    rw [List.replicate_succ, List.range_succ_eq_map]
    simp [crossfadeBlendOutput, tkTest, ih, List.map_map, config.BLOCK_SIZE]
    intro a _
    ring_nf

/-- Claim C1: the claim says one `processBlock` call after `configure` clears
the crossfade flag and flips the active index.  In the source every branch of
the dispatch returns before the flag-clearing block (biquad.cpp lines 65–72),
so the flag stays `true` and `active` never flips, for every filter state,
input, and `add` value. -/
theorem c1_processBlock_never_clears_crossfade {σ : Type} (channels : Nat)
    (tick : σ → List ℚ → σ × List ℚ) (setParameters : σ → BiquadFilterDef → σ)
    (s : ConcreteBiquadFilter σ) (cfg : syz_BiquadConfig)
    (input out_prev : List (List ℚ)) (add : Bool) :
    (configure setParameters s cfg).crossfade = true ∧
    (processBlock channels tick (configure setParameters s cfg) input out_prev add).2.crossfade = true ∧
    (processBlock channels tick (configure setParameters s cfg) input out_prev add).2.active =
      (configure setParameters s cfg).active := by
  have hcf : (configure setParameters s cfg).crossfade = true := by
    simp [configure]
  refine ⟨hcf, ?_, ?_⟩
  · cases add <;>
      simp [processBlock, hcf, (processBlockImpl_crossfade_active _ _ _ _ _ _ _).1]
  · cases add <;>
      simp [processBlock, hcf, (processBlockImpl_crossfade_active _ _ _ _ _ _ _).2]

lemma processBlock_noCF_out :
    (processBlock 1 tkTest sNoCF onesIn zerosOut false).1 =
      List.replicate 256 [0] := by
  show (processBlockImpl 1 tkTest false true sNoCF onesIn zerosOut).1 =
    List.replicate 256 [0]
  simp only [processBlockImpl]
  rw [show sNoCF.activeFilter = true from rfl,
    show sNoCF.inactiveFilter = false from rfl, zip_ones_zeros,
    processLoop_wire_zero]

lemma processBlock_CF_out :
    (processBlock 1 tkTest sCF onesIn zerosOut false).1 =
      List.replicate 256 [0] := by
  show (processBlockImpl 1 tkTest false true sCF onesIn zerosOut).1 =
    List.replicate 256 [0]
  simp only [processBlockImpl]
  rw [show sCF.activeFilter = true from rfl,
    show sCF.inactiveFilter = false from rfl, zip_ones_zeros,
    processLoop_wire_zero]

/-- Claim C2: with `add = false` and the crossfade flag clear, `processBlock`
dispatches to the `ADD=false, CROSSFADING=true` instantiation (the
fall-through at biquad.cpp line 61), and its output differs from the
active-filter-only output the claim specifies: at sample 128 the code yields
0 while the active (wire) filter's output is 1. -/
theorem c2_dispatch_fall_through :
    processBlock 1 tkTest sNoCF onesIn zerosOut false =
      processBlockImpl 1 tkTest false true sNoCF onesIn zerosOut ∧
    (processBlock 1 tkTest sNoCF onesIn zerosOut false).1[128]? = some [0] ∧
    (activeOnlyOutput tkTest true onesIn)[128]? = some [1] ∧
    (processBlock 1 tkTest sNoCF onesIn zerosOut false).1[128]? ≠
      (activeOnlyOutput tkTest true onesIn)[128]? := by
  have h3 : (activeOnlyOutput tkTest true onesIn) = List.replicate 256 [1] := by
    rw [onesIn, activeOnly_wire]
  have h2 := processBlock_noCF_out
  refine ⟨rfl, ?_, ?_, ?_⟩
  · rw [h2, List.getElem?_replicate_of_lt (by decide)]
  · rw [h3, List.getElem?_replicate_of_lt (by decide)]
  · rw [h2, h3, List.getElem?_replicate_of_lt (by decide),
      List.getElem?_replicate_of_lt (by decide)]
    decide

/-- Claim C4: during the crossfade block the claim specifies the blend
`(1 - i/BLOCK_SIZE)·inactive + (i/BLOCK_SIZE)·active`; the code (with
`add = false`) instead outputs `(1 - i/BLOCK_SIZE)·inactive` only (the
active tick lands in the output slot and is then overwritten by the copy-out
of `tmp`, which never received the active sample).  At sample 128, with the
active filter a wire, the zero inactive filter, and constant input 1, the
claimed blend is 128/256 but the code outputs 0. -/
theorem c4_crossfade_block_not_blend :
    (processBlock 1 tkTest sCF onesIn zerosOut false).1[128]? = some [0] ∧
    (crossfadeBlendOutput tkTest 0 true false onesIn)[128]? = some [(128 : ℚ) / 256] ∧
    (processBlock 1 tkTest sCF onesIn zerosOut false).1[128]? ≠
      (crossfadeBlendOutput tkTest 0 true false onesIn)[128]? := by
  have h2 := processBlock_CF_out
  have h3 : (crossfadeBlendOutput tkTest 0 true false onesIn)[128]? =
      some [(128 : ℚ) / 256] := by
    rw [onesIn, blend_wire_zero, List.getElem?_map,
      List.getElem?_range (by decide : (128 : Nat) < 256)]
    norm_num
  refine ⟨?_, h3, ?_⟩
  · rw [h2, List.getElem?_replicate_of_lt (by decide)]
  · rw [h2, h3, List.getElem?_replicate_of_lt (by decide)]
    intro h
    rw [Option.some_inj, List.cons.injEq] at h
    have := h.1
    norm_num at this

end ConcreteBiquadFilter

end Synthizer

namespace Synthizer

/-- A generator as `Source::fillBlock` sees one: `getChannels()` and the
samples its `run` adds into the destination buffer (`channels × BLOCK_SIZE`
floats).  `id` stands for the `shared_ptr` identity used by
`s == generator` comparisons. -/
structure Generator where
  id : Nat
  channels : Nat
  output : List ℚ
deriving DecidableEq, Repr

/-- State of `Source` relevant to the claims: the weak-reference generator list
(`none` = expired weak_ptr), the gain fader state, the pausable mixin state,
and whether the source is paused.  Fader and pausable internals
(`fade_driver.hpp`, the `Pausable` mixin) are not in the snapshot, so their
state types are parameters. -/
structure Source (σf σp : Type) where
  generators : List (Option Generator)
  gain_fader : σf
  pausable : σp
  paused : Bool

/-- Method `Source::hasGenerator`: `weak_vector::contains(this->generators,
generator)` — some entry locks to the generator. -/
def hasGenerator (gens : List (Option Generator)) (g : Generator) : Bool :=
  gens.any (fun e => e == some g)

/-- Method `Source::addGenerator`: no-op when the generator is already present,
otherwise `emplace_back`. -/
def addGenerator (gens : List (Option Generator)) (g : Generator) :
    List (Option Generator) :=
  if hasGenerator gens g then gens else gens ++ [some g]

/-- Method `Source::removeGenerator`: early-out on empty or absent; otherwise find
the first index locking to the generator, swap it with the last slot and
shrink the vector by one. -/
def removeGenerator (gens : List (Option Generator)) (g : Generator) :
    List (Option Generator) :=
  if gens.isEmpty then gens
  else if hasGenerator gens g = false then gens
  else
    (gens.set (gens.findIdx (fun e => e == some g)) (gens.getLastD none)).dropLast

/-- The `weak_vector::iterate_removing` loop of `fillBlock`: expired entries
are removed; a live generator with `getChannels() == 0` is skipped; one whose
channel count matches runs directly into `block` (generator `run`s add, per
the conventions the source relies on); otherwise it runs into a zeroed
premix which `mixChannels` then mixes into `block`.  `mixChannels`
(`channel_mixing.hpp`, not in the snapshot) is a parameter.  The
weak-vector helper itself (`vector_helpers.hpp`) is also outside the
snapshot; its iterate-removing behaviour (upgrade each weak reference,
remove expired entries, invoke the callback on live ones) follows the spec's
fillBlock step 5.

Returns the surviving generator list, the updated block, and the trace of
generators whose `run` was invoked. -/
def iterate_removing (mixChannels : List ℚ → Nat → Nat → List ℚ → List ℚ)
    (channels : Nat) :
    List (Option Generator) → List ℚ →
      List (Option Generator) × List ℚ × List Generator
  | [], block => ([], block, [])
  | none :: rest, block => iterate_removing mixChannels channels rest block
  | some g :: rest, block =>
    if g.channels = 0 then
      let r := iterate_removing mixChannels channels rest block
      (some g :: r.1, r.2.1, r.2.2)
    else
      let block1 :=
        if g.channels = channels then List.zipWith (· + ·) block g.output
        else mixChannels g.output g.channels channels block
      let r := iterate_removing mixChannels channels rest block1
      (some g :: r.1, r.2.1, g :: r.2.2)

/-- The per-sample gain application of `fillBlock`:
`block[i * channels + ch] *= gain_cb(i)`. -/
def applyGain (gain_cb : Nat → ℚ) (channels : Nat) (block : List ℚ) :
    List ℚ :=
  block.mapIdx (fun idx v => v * gain_cb (idx / channels))

/-- What `Source::fillBlock` leaves behind: the generator list after the
iterate-removing pass, the fader and pausable states, the contents of
`this->block`, what was routed to the output handle (`none` when
`routeAudio` was never called), and the trace of generators run. -/
structure FillBlockResult (σf σp : Type) where
  generators : List (Option Generator)
  gain_fader : σf
  pausable : σp
  block : List ℚ
  routed : Option (List ℚ)
  ran : List Generator

/-- Method `Source::fillBlock(channels)`, in source order: acquire the (zeroed)
premix, capture the gain property into the fader (`updFader`, abstract —
property plumbing and `FadeDriver::setValue` are outside the snapshot), zero
`this->block`, return early if paused, `tickPausable`, run the generator
loop, apply the fader's per-sample gain (`gain_cb fader`), and route the
block to the output handle. -/
def fillBlock {σf σp : Type}
    (mixChannels : List ℚ → Nat → Nat → List ℚ → List ℚ)
    (updFader : σf → σf) (gain_cb : σf → Nat → ℚ) (tickPausable : σp → σp)
    (channels : Nat) (s : Source σf σp) : FillBlockResult σf σp :=
  let fader := updFader s.gain_fader
  let block0 : List ℚ := List.replicate (channels * config.BLOCK_SIZE) 0
  if s.paused then
    { generators := s.generators, gain_fader := fader, pausable := s.pausable,
      block := block0, routed := none, ran := [] }
  else
    let pz := tickPausable s.pausable
    let r := iterate_removing mixChannels channels s.generators block0
    let gained := applyGain (gain_cb fader) channels r.2.1
    { generators := r.1, gain_fader := fader, pausable := pz,
      block := gained, routed := some gained, ran := r.2.2 }

end Synthizer

namespace Synthizer

lemma hasGenerator_eq_false_iff (gens : List (Option Generator)) (g : Generator) :
    hasGenerator gens g = false ↔ some g ∉ gens := by
  simp only [hasGenerator, Bool.eq_false_iff, ne_eq, List.any_eq_true, beq_iff_eq,
    not_exists, not_and]
  constructor
  · intro h hmem
    exact h _ hmem rfl
  · intro h x hx hxg
    exact h (hxg ▸ hx)

lemma hasGenerator_eq_true_iff (gens : List (Option Generator)) (g : Generator) :
    hasGenerator gens g = true ↔ some g ∈ gens := by
  simp [hasGenerator]

lemma findIdx_no_match (l : List (Option Generator)) (g : Generator)
    (h : some g ∉ l) :
    l.findIdx (fun e => e == some g) = l.length :=
  List.findIdx_eq_length_of_false (by
    intro x hx
    simp only [beq_eq_false_iff_ne, ne_eq]
    exact fun hxg => h (hxg ▸ hx))

lemma removeGenerator_concat_of_not_mem (l : List (Option Generator))
    (g : Generator) (h : some g ∉ l) :
    removeGenerator (l ++ [some g]) g = l := by
  have hhas : hasGenerator (l ++ [some g]) g = true := by
    simp [hasGenerator]
  have hidx : (l ++ [some g]).findIdx (fun e => e == some g) = l.length := by
    rw [List.findIdx_append, findIdx_no_match l g h]
    simp [List.findIdx_cons]
  have hlast : (l ++ [some g]).getLastD none = some g := List.getLastD_concat _ _ _
  rw [removeGenerator, if_neg (by simp), if_neg (by simp [hhas]), hidx, hlast,
    List.set_append_right _ _ (Nat.le_refl _)]
  simp

lemma removeGenerator_middle_not_has (l₁ l₂ : List (Option Generator))
    (g : Generator) (h₁ : some g ∉ l₁) (h₂ : some g ∉ l₂) :
    hasGenerator (removeGenerator (l₁ ++ some g :: l₂) g) g = false := by
  have hhas : hasGenerator (l₁ ++ some g :: l₂) g = true := by
    simp [hasGenerator]
  have hidx : (l₁ ++ some g :: l₂).findIdx (fun e => e == some g) = l₁.length := by
    rw [List.findIdx_append, findIdx_no_match l₁ g h₁]
    simp [List.findIdx_cons]
  rw [removeGenerator, if_neg (by simp), if_neg (by simp [hhas]), hidx,
    List.set_append_right _ _ (Nat.le_refl _), hasGenerator_eq_false_iff]
  rw [Nat.sub_self, List.set_cons_zero, List.dropLast_append_cons]
  intro hmem
  rcases List.mem_append.mp hmem with hL | hR
  · exact h₁ hL
  · cases l₂ with
    | nil => simp at hR
    | cons b t =>
      have hlast_mem : (l₁ ++ some g :: b :: t).getLastD none ∈ b :: t := by
        rw [List.getLastD_eq_getLast?, List.getLast?_append, List.getLast?_cons_cons]
        obtain ⟨x, hx⟩ : ∃ x, (b :: t).getLast? = some x := by
          cases hgl : (b :: t).getLast? with
          | none =>
            rw [List.getLast?_eq_none_iff] at hgl
            exact absurd hgl (by simp)
          | some x => exact ⟨x, rfl⟩
        rw [hx]
        simp only [Option.or_some, Option.getD_some]
        exact List.mem_of_mem_getLast? (hx ▸ rfl)
      rw [List.dropLast_cons₂] at hR
      rcases List.mem_cons.mp hR with hR1 | hR2
      · exact h₂ (hR1 ▸ hlast_mem)
      · exact h₂ (List.dropLast_subset _ hR2)

lemma add_remove_not_has (l : List (Option Generator)) (g : Generator)
    (h : l.count (some g) ≤ 1) :
    hasGenerator (removeGenerator (addGenerator l g) g) g = false := by
  by_cases hmem : some g ∈ l
  · obtain ⟨l₁, l₂, rfl⟩ := List.append_of_mem hmem
    have hcnt : l₁.count (some g) = 0 ∧ l₂.count (some g) = 0 := by
      rw [List.count_append, List.count_cons_self] at h
      omega
    have h₁ : some g ∉ l₁ := by
      rw [← List.count_eq_zero]
      exact hcnt.1
    have h₂ : some g ∉ l₂ := by
      rw [← List.count_eq_zero]
      exact hcnt.2
    rw [addGenerator, if_pos ((hasGenerator_eq_true_iff _ _).mpr hmem)]
    exact removeGenerator_middle_not_has l₁ l₂ g h₁ h₂
  · rw [addGenerator, if_neg (by
      rw [Bool.not_eq_true, hasGenerator_eq_false_iff]
      exact hmem)]
    rw [removeGenerator_concat_of_not_mem l g hmem, hasGenerator_eq_false_iff]
    exact hmem

lemma mem_ran_channels_ne_zero
    (mixChannels : List ℚ → Nat → Nat → List ℚ → List ℚ) (channels : Nat)
    (gens : List (Option Generator)) :
    ∀ (block : List ℚ) (g : Generator),
      g ∈ (iterate_removing mixChannels channels gens block).2.2 →
      g.channels ≠ 0 := by
  induction gens with
  | nil =>
    intro block g hg
    simp [iterate_removing] at hg
  | cons e rest ih =>
    intro block g hg
    cases e with
    | none => exact ih block g hg
    | some h =>
      rw [iterate_removing] at hg
      by_cases hch : h.channels = 0
      · rw [if_pos hch] at hg
        exact ih block g hg
      · rw [if_neg hch] at hg
        rcases List.mem_cons.mp hg with hg1 | hg2
        · exact hg1 ▸ hch
        · exact ih _ g hg2

lemma mem_ran_mem_gens
    (mixChannels : List ℚ → Nat → Nat → List ℚ → List ℚ) (channels : Nat)
    (gens : List (Option Generator)) :
    ∀ (block : List ℚ) (g : Generator),
      g ∈ (iterate_removing mixChannels channels gens block).2.2 →
      some g ∈ gens := by
  induction gens with
  | nil =>
    intro block g hg
    simp [iterate_removing] at hg
  | cons e rest ih =>
    intro block g hg
    cases e with
    | none => exact List.mem_cons_of_mem _ (ih block g hg)
    | some h =>
      rw [iterate_removing] at hg
      by_cases hch : h.channels = 0
      · rw [if_pos hch] at hg
        exact List.mem_cons_of_mem _ (ih block g hg)
      · rw [if_neg hch] at hg
        rcases List.mem_cons.mp hg with hg1 | hg2
        · exact hg1 ▸ List.mem_cons_self _ _
        · exact List.mem_cons_of_mem _ (ih _ g hg2)

lemma count_ran_le_count_gens
    (mixChannels : List ℚ → Nat → Nat → List ℚ → List ℚ) (channels : Nat)
    (gens : List (Option Generator)) (g : Generator) :
    ∀ block : List ℚ,
      (iterate_removing mixChannels channels gens block).2.2.count g ≤
        gens.count (some g) := by
  induction gens with
  | nil =>
    intro block
    simp [iterate_removing]
  | cons e rest ih =>
    intro block
    cases e with
    | none =>
      rw [iterate_removing]
      calc _ ≤ rest.count (some g) := ih block
        _ ≤ _ := List.count_le_count_cons _ _ _
    | some h =>
      rw [iterate_removing]
      by_cases hch : h.channels = 0
      · rw [if_pos hch]
        calc _ ≤ rest.count (some g) := ih block
          _ ≤ _ := List.count_le_count_cons _ _ _
      · rw [if_neg hch]
        by_cases hgh : h = g
        · subst hgh
          rw [List.count_cons_self, List.count_cons_self]
          exact Nat.succ_le_succ (ih _)
        · have hgh' : g ≠ h := fun hc => hgh hc.symm
          rw [List.count_cons_of_ne hgh', List.count_cons_of_ne (by simpa using hgh')]
          exact ih _

lemma iterate_removing_skip_zero
    (mixChannels : List ℚ → Nat → Nat → List ℚ → List ℚ) (channels : Nat)
    (g : Generator) (hch : g.channels = 0) (l₁ l₂ : List (Option Generator)) :
    ∀ block : List ℚ,
      (iterate_removing mixChannels channels (l₁ ++ some g :: l₂) block).2 =
        (iterate_removing mixChannels channels (l₁ ++ l₂) block).2 := by
  induction l₁ with
  | nil =>
    intro block
    rw [List.nil_append, List.nil_append, iterate_removing, if_pos hch]
  | cons e rest ih =>
    intro block
    cases e with
    | none =>
      rw [List.cons_append, List.cons_append, iterate_removing, iterate_removing]
      exact ih block
    | some h =>
      rw [List.cons_append, List.cons_append, iterate_removing, iterate_removing]
      by_cases hh : h.channels = 0
      · rw [if_pos hh, if_pos hh]
        simpa using ih block
      · rw [if_neg hh, if_neg hh]
        have h' := Prod.ext_iff.mp (ih (if h.channels = channels
          then List.zipWith (· + ·) block h.output
          else mixChannels h.output h.channels channels block))
        simp only [Prod.mk.injEq]
        exact ⟨h'.1, by rw [h'.2]⟩

/-- Identity channel mixer used to instantiate witness statements. -/
def mixKeep : List ℚ → Nat → Nat → List ℚ → List ℚ := fun _ _ _ block => block

/-- A paused source whose pausable state is a tick counter at 0. -/
def pausedSrc : Source Unit Nat :=
  { generators := [], gain_fader := (), pausable := 0, paused := true }

/-- A running source with an empty generator list and trivial fader/pausable
state. -/
def runningSrc : Source Unit Unit :=
  { generators := [], gain_fader := (), pausable := (), paused := false }

/-- A one-channel generator emitting a constant block. -/
def gen1 : Generator :=
  { id := 1, channels := 1, output := List.replicate 256 1 }

/-- A generator reporting zero channels. -/
def gen0 : Generator :=
  { id := 2, channels := 0, output := [] }

/-- Claim C5 counterexample: the claim says a paused source's `fillBlock`
"ticks the pausable state and returns early".  The source returns at
`if (this->isPaused()) return;` BEFORE the `this->tickPausable();` call, so
the pausable state is untouched: with a counting pausable state (tick =
successor) the counter stays 0 instead of becoming 1. -/
theorem c5_paused_does_not_tick :
    (fillBlock mixKeep (fun u => u) (fun _ _ => 1) Nat.succ 1 pausedSrc).pausable ≠
      Nat.succ pausedSrc.pausable := by
  decide

/-- Claim C5 (amended): for every paused source, `fillBlock` returns early
WITHOUT ticking the pausable state, leaving the block all zeros, routing
nothing, and running no generator. -/
theorem c5_paused_early_return {σf σp : Type}
    (mixChannels : List ℚ → Nat → Nat → List ℚ → List ℚ)
    (updFader : σf → σf) (gain_cb : σf → Nat → ℚ) (tickPausable : σp → σp)
    (channels : Nat) (s : Source σf σp) (h : s.paused = true) :
    (fillBlock mixChannels updFader gain_cb tickPausable channels s).pausable =
      s.pausable ∧
    (fillBlock mixChannels updFader gain_cb tickPausable channels s).block =
      List.replicate (channels * config.BLOCK_SIZE) 0 ∧
    (fillBlock mixChannels updFader gain_cb tickPausable channels s).routed = none ∧
    (fillBlock mixChannels updFader gain_cb tickPausable channels s).ran = [] ∧
    (fillBlock mixChannels updFader gain_cb tickPausable channels s).generators =
      s.generators := by
  rw [fillBlock]
  simp [h]

theorem c5_paused_early_return_witness :
    pausedSrc.paused = true ∧
    (fillBlock mixKeep (fun u => u) (fun _ _ => 1) Nat.succ 1 pausedSrc).routed =
      none :=
  ⟨rfl, (c5_paused_early_return mixKeep (fun u => u) (fun _ _ => 1) Nat.succ 1
    pausedSrc rfl).2.2.1⟩

/-- Claim C7: adding then removing a generator before the block is rendered
leaves it absent from the list, so its `run` is never invoked by that
block's `fillBlock`.  Holds whenever the list does not already hold the
generator twice (an invariant `addGenerator`'s presence check maintains). -/
theorem c7_add_remove_not_run {σf σp : Type}
    (mixChannels : List ℚ → Nat → Nat → List ℚ → List ℚ)
    (updFader : σf → σf) (gain_cb : σf → Nat → ℚ) (tickPausable : σp → σp)
    (channels : Nat) (s : Source σf σp) (g : Generator)
    (h : s.generators.count (some g) ≤ 1) :
    hasGenerator (removeGenerator (addGenerator s.generators g) g) g = false ∧
    g ∉ (fillBlock mixChannels updFader gain_cb tickPausable channels
      { s with generators := removeGenerator (addGenerator s.generators g) g }).ran := by
  refine ⟨add_remove_not_has s.generators g h, ?_⟩
  intro hmem
  rw [fillBlock] at hmem
  by_cases hp : s.paused
  · simp [hp] at hmem
  · simp only [hp] at hmem
    simp only [Bool.false_eq_true, if_false] at hmem
    have hgmem : some g ∈ removeGenerator (addGenerator s.generators g) g :=
      mem_ran_mem_gens mixChannels channels _ _ g hmem
    have := (hasGenerator_eq_false_iff _ g).mp (add_remove_not_has s.generators g h)
    exact this hgmem

theorem c7_add_remove_not_run_witness :
    runningSrc.generators.count (some gen1) ≤ 1 ∧
    gen1 ∉ (fillBlock mixKeep (fun u => u) (fun _ _ => 1) (fun u => u) 1
      { runningSrc with
        generators := removeGenerator (addGenerator runningSrc.generators gen1) gen1 }).ran :=
  ⟨by simp [runningSrc], (c7_add_remove_not_run mixKeep (fun u => u) (fun _ _ => 1)
    (fun u => u) 1 runningSrc gen1 (by simp [runningSrc])).2⟩

/-- Claim C9: a generator whose `getChannels()` is 0 is skipped by the
`nch == 0` early-out in the generator loop: its `run` is never invoked, and
the block, the routed audio and the set of generators run are exactly those
of the same source without that generator. -/
theorem c9_zero_channel_silent {σf σp : Type}
    (mixChannels : List ℚ → Nat → Nat → List ℚ → List ℚ)
    (updFader : σf → σf) (gain_cb : σf → Nat → ℚ) (tickPausable : σp → σp)
    (channels : Nat) (s : Source σf σp) (l₁ l₂ : List (Option Generator))
    (g : Generator) (hch : g.channels = 0)
    (hgen : s.generators = l₁ ++ some g :: l₂) :
    (fillBlock mixChannels updFader gain_cb tickPausable channels s).block =
      (fillBlock mixChannels updFader gain_cb tickPausable channels
        { s with generators := l₁ ++ l₂ }).block ∧
    (fillBlock mixChannels updFader gain_cb tickPausable channels s).routed =
      (fillBlock mixChannels updFader gain_cb tickPausable channels
        { s with generators := l₁ ++ l₂ }).routed ∧
    (fillBlock mixChannels updFader gain_cb tickPausable channels s).ran =
      (fillBlock mixChannels updFader gain_cb tickPausable channels
        { s with generators := l₁ ++ l₂ }).ran ∧
    g ∉ (fillBlock mixChannels updFader gain_cb tickPausable channels s).ran := by
  have hskip := iterate_removing_skip_zero mixChannels channels g hch l₁ l₂
    (List.replicate (channels * config.BLOCK_SIZE) 0)
  have hpair := Prod.ext_iff.mp hskip
  by_cases hp : s.paused
  · rw [fillBlock, fillBlock]
    simp [hp]
  · constructor
    · rw [fillBlock, fillBlock]
      simp only [hp, Bool.false_eq_true, if_false, hgen]
      rw [hpair.1]
    constructor
    · rw [fillBlock, fillBlock]
      simp only [hp, Bool.false_eq_true, if_false, hgen]
      rw [hpair.1]
    constructor
    · rw [fillBlock, fillBlock]
      simp only [hp, Bool.false_eq_true, if_false, hgen]
      rw [hpair.2]
    · intro hmem
      rw [fillBlock] at hmem
      simp only [hp, Bool.false_eq_true, if_false] at hmem
      exact mem_ran_channels_ne_zero mixChannels channels _ _ g hmem hch

theorem c9_zero_channel_silent_witness :
    gen0.channels = 0 ∧
    gen0 ∉ (fillBlock mixKeep (fun u => u) (fun _ _ => 1) (fun u => u) 1
      { runningSrc with generators := [some gen0] }).ran :=
  ⟨rfl, (c9_zero_channel_silent mixKeep (fun u => u) (fun _ _ => 1) (fun u => u) 1
    { runningSrc with generators := [some gen0] } [] [] gen0 rfl rfl).2.2.2⟩

/-- Claim C10: `addGenerator` is idempotent — when the generator is already
present the early `hasGenerator` check returns without appending — and with
the no-duplicate invariant the generator is run at most once per block. -/
theorem c10_addGenerator_idempotent {σf σp : Type}
    (mixChannels : List ℚ → Nat → Nat → List ℚ → List ℚ)
    (updFader : σf → σf) (gain_cb : σf → Nat → ℚ) (tickPausable : σp → σp)
    (channels : Nat) (s : Source σf σp) (g : Generator)
    (h1 : hasGenerator s.generators g = true)
    (h2 : s.generators.count (some g) ≤ 1) :
    addGenerator s.generators g = s.generators ∧
    (fillBlock mixChannels updFader gain_cb tickPausable channels
      { s with generators := addGenerator s.generators g }).ran.count g ≤ 1 := by
  have hadd : addGenerator s.generators g = s.generators := by
    rw [addGenerator, if_pos h1]
  refine ⟨hadd, ?_⟩
  rw [hadd, fillBlock]
  by_cases hp : s.paused
  · simp [hp]
  · simp only [hp, Bool.false_eq_true, if_false]
    calc (iterate_removing mixChannels channels s.generators
          (List.replicate (channels * config.BLOCK_SIZE) 0)).2.2.count g ≤
        s.generators.count (some g) :=
          count_ran_le_count_gens mixChannels channels s.generators g _
      _ ≤ 1 := h2

theorem c10_addGenerator_idempotent_witness :
    hasGenerator [some gen1] gen1 = true ∧
    addGenerator [some gen1] gen1 = [some gen1] :=
  ⟨by simp [hasGenerator], (c10_addGenerator_idempotent mixKeep (fun u => u) (fun _ _ => 1)
    (fun u => u) 1 { runningSrc with generators := [some gen1] } gen1
    (by simp [hasGenerator]) (by simp)).1⟩

end Synthizer

namespace Synthizer

/-!
### Property dispatcher (`src/unnamed/part_002`, `property_impl.hpp`)

Each class's `PROPERTY_LIST` X-macro expands to one `case` per declared
property inside a `switch (property)`; the `default:` case goes to the
immediate base class.  A class chain is therefore a list of descriptor
lists, most-derived first.  `shared_ptr<CExposable>` values carry the set of
capability classes a `dynamic_pointer_cast` would succeed for.
-/

/-- A `CExposable` object reference: identity plus the capability classes
its dynamic type satisfies. -/
structure CExposable where
  id : Nat
  caps : List Nat
deriving DecidableEq, Repr

/-- Variant `property_impl::PropertyValue`: the
`std::variant<int, double, shared_ptr<CExposable>, array<double,3>,
array<double,6>>` (a null object reference is `vObject none`). -/
inductive PropertyValue
  | vInt (i : Int)
  | vDouble (d : ℚ)
  | vObject (o : Option CExposable)
  | vDouble3 (a : ℚ × ℚ × ℚ)
  | vDouble6 (a : ℚ × ℚ × ℚ × ℚ × ℚ × ℚ)
deriving DecidableEq, Repr

/-- The error kinds the dispatcher throws (`error.hpp` names in
parentheses): `PropertyTypeError` (`EPropertyType`), `RangeError`
(`ERange`), `HandleTypeError` (`EHandleType`), and the spec §7
`PropertyDoesNotExist` for a property no class in the chain declares. -/
inductive SynthizerError
  | EPropertyType
  | ERange
  | EHandleType
  | EPropertyDoesNotExist
deriving DecidableEq, Repr

/-- One stanza of a `PROPERTY_LIST`: `INT_P(p, ..., min, max)`,
`DOUBLE_P(p, ..., min, max)`, `OBJECT_P(p, ..., cls)`, `DOUBLE3_P(p, ...)`
or `DOUBLE6_P(p, ...)`. -/
inductive PropertyDef
  | intP (p : Int) (min max : Int)
  | doubleP (p : Int) (min max : ℚ)
  | objectP (p : Int) (cap : Nat)
  | double3P (p : Int)
  | double6P (p : Int)
deriving DecidableEq, Repr

/-- The property id (`case` label) of a descriptor. -/
def PropertyDef.propId : PropertyDef → Int
  | .intP p _ _ => p
  | .doubleP p _ _ => p
  | .objectP p _ => p
  | .double3P p => p
  | .double6P p => p

/-- Does the value's variant alternative agree with the declared kind
(the `std::get_if<type>(&value) != nullptr` test of the macros)? -/
def tagMatches : PropertyDef → PropertyValue → Bool
  | .intP _ _ _, .vInt _ => true
  | .doubleP _ _ _, .vDouble _ => true
  | .objectP _ _, .vObject _ => true
  | .double3P _, .vDouble3 _ => true
  | .double6P _, .vDouble6 _ => true
  | _, _ => false

/-- Which `case` of a class's `switch` fires: the declared descriptor with
this property id (`case` labels are unique within one class). -/
def findDecl (own : List PropertyDef) (p : Int) : Option PropertyDef :=
  own.find? (fun d => d.propId == p)

/-- Method `PROPERTY_CLASS::hasProperty` as generated: the matching `case` returns
`true`; the `default:` case of the source calls
`PROPERTY_BASE::hasProperty(property)` but DISCARDS the result (the `return`
is missing, unlike the other three methods), after which control falls out
of the switch to the trailing `return false`. -/
def hasProperty : List (List PropertyDef) → Int → Bool
  | [], _ => false
  | own :: bases, p =>
    if (findDecl own p).isSome then true
    else
      -- `PROPERTY_BASE::hasProperty(property);` — value computed, dropped
      let _ := hasProperty bases p
      false

/-- Claim-side predicate (C3's wording): the property is declared on the
class or on some base class along the chain. -/
def declaredInChain (chain : List (List PropertyDef)) (p : Int) : Bool :=
  chain.any (fun own => (findDecl own p).isSome)

/-- The `VALIDATE_` stanza for one matched descriptor: variant-tag check
(`EPropertyType`), then the kind's checker — inclusive range for `int` /
`double` (`ERange`), capability cast for objects with null passing
(`EHandleType`), nothing further for double3/double6. -/
def validateOne : PropertyDef → PropertyValue → Except SynthizerError Unit
  | .intP _ mn mx, .vInt i =>
    if i < mn ∨ i > mx then .error .ERange else .ok ()
  | .doubleP _ mn mx, .vDouble d =>
    if d < mn ∨ d > mx then .error .ERange else .ok ()
  | .objectP _ cap, .vObject o =>
    match o with
    | none => .ok ()
    | some obj => if cap ∈ obj.caps then .ok () else .error .EHandleType
  | .double3P _, .vDouble3 _ => .ok ()
  | .double6P _, .vDouble6 _ => .ok ()
  | _, _ => .error .EPropertyType

/-- Method `PROPERTY_CLASS::validateProperty`: switch on the own descriptors, chain
to the base on miss (here the `default:` case genuinely reaches the base,
the methods being `void`).  The chain's root (`BaseObject`, not in the
snapshot) rejects unknown properties; modelled from the spec's §7
`PropertyDoesNotExist`. -/
def validateProperty : List (List PropertyDef) → Int → PropertyValue →
    Except SynthizerError Unit
  | [], _, _ => .error .EPropertyDoesNotExist
  | own :: bases, p, v =>
    match findDecl own p with
    | some d => validateOne d v
    | none => validateProperty bases p v

/-- Method `PROPERTY_CLASS::setProperty` (the `SET_` stanza): tag check, then store
through the class's `set##name` member setter.  The object store is a total
map from property id to value. -/
def setProperty : List (List PropertyDef) → (Int → PropertyValue) → Int →
    PropertyValue → Except SynthizerError (Int → PropertyValue)
  | [], _, _, _ => .error .EPropertyDoesNotExist
  | own :: bases, st, p, v =>
    match findDecl own p with
    | some d =>
      if tagMatches d v then .ok (fun q => if q == p then v else st q)
      else .error .EPropertyType
    | none => setProperty bases st p v

/-- Method `PROPERTY_CLASS::getProperty` (the `GET_` stanza): return the stored
value through the class's getter, after the `std::get_if` check on the
converted variant. -/
def getProperty : List (List PropertyDef) → (Int → PropertyValue) → Int →
    Except SynthizerError PropertyValue
  | [], _, _ => .error .EPropertyDoesNotExist
  | own :: bases, st, p =>
    match findDecl own p with
    | some d =>
      if tagMatches d (st p) then .ok (st p) else .error .EPropertyType
    | none => getProperty bases st p

/-- Modelled from the spec: the external property write path
(`Context::setXXXProperty` / the property ring, not in the snapshot)
"validates synchronously (rejecting bad writes before crossing the
boundary)" and only on success lets the audio thread apply `setProperty`.
Returns the resulting store and the error, if any. -/
def externalSetProperty (chain : List (List PropertyDef))
    (st : Int → PropertyValue) (p : Int) (v : PropertyValue) :
    (Int → PropertyValue) × Option SynthizerError :=
  match validateProperty chain p v with
  | .error e => (st, some e)
  | .ok _ =>
    match setProperty chain st p v with
    | .error e => (st, some e)
    | .ok st1 => (st1, none)

/-- First declaration found walking the chain from the most-derived class. -/
def findDeclChain : List (List PropertyDef) → Int → Option PropertyDef
  | [], _ => none
  | own :: bases, p =>
    match findDecl own p with
    | some d => some d
    | none => findDeclChain bases p

lemma validateProperty_eq_findDeclChain (chain : List (List PropertyDef))
    (p : Int) (v : PropertyValue) :
    validateProperty chain p v =
      match findDeclChain chain p with
      | some d => validateOne d v
      | none => .error .EPropertyDoesNotExist := by
  induction chain with
  | nil => rfl
  | cons own bases ih =>
    rw [validateProperty, findDeclChain]
    cases findDecl own p with
    | some d => rfl
    | none => simpa using ih

/-- Value of `SYZ_P_GAIN` from `enum SYZ_PROPERTIES` in `synthizer_constants.h`
(`src/unnamed/part_001`): the ninth enumerator, value 8. -/
def SYZ_P_GAIN : Int := 8

/-- A gain descriptor: a double property whose range has `0 ≤ min` (the
exact bounds live in `property_xmacros.hpp`, outside the snapshot; the
spec's scenario needs only that `-1.0` lies below the minimum). -/
def gainProp : PropertyDef := .doubleP SYZ_P_GAIN 0 2

/-- A two-class chain: the derived class declares nothing, its base declares
the gain property. -/
def demoChain : List (List PropertyDef) := [[], [gainProp]]

/-- Claim C3: `hasProperty` should return true for a property declared
anywhere along the class chain.  The generated `hasProperty` is the only one
of the four dispatch methods whose `default:` case lacks a `return`: the
base-class result is computed and dropped, and the method returns false for
every property not declared on the class itself.  Concretely, with the gain
property declared only on the base, the chain declares it but `hasProperty`
answers false. -/
theorem c3_hasProperty_drops_base_result :
    (∀ (own : List PropertyDef) (bases : List (List PropertyDef)) (p : Int),
      hasProperty (own :: bases) p = (findDecl own p).isSome) ∧
    declaredInChain demoChain SYZ_P_GAIN = true ∧
    hasProperty demoChain SYZ_P_GAIN = false := by
  refine ⟨?_, by decide, by decide⟩
  intro own bases p
  cases h : (findDecl own p).isSome <;> simp [hasProperty, h]

lemma validateOne_tag_mismatch (d : PropertyDef) (v : PropertyValue)
    (h : tagMatches d v = false) :
    validateOne d v = .error .EPropertyType := by
  cases d <;> cases v <;> simp_all [tagMatches, validateOne]

/-- Claim C6: `validateProperty` raises `EPropertyType` when the value's
variant tag disagrees with the declared kind, `ERange` when an int/double
value lies outside the inclusive declared `[min, max]`, and `EHandleType`
when an object value lacks the required capability; and a set that fails
validation leaves the stored property state untouched, so a subsequent get
returns the prior value. -/
theorem c6_validateProperty_errors (chain : List (List PropertyDef)) (p : Int)
    (v : PropertyValue) (st : Int → PropertyValue) :
    (∀ d, findDeclChain chain p = some d → tagMatches d v = false →
      validateProperty chain p v = .error .EPropertyType) ∧
    (∀ p1 mn mx x, findDeclChain chain p = some (.doubleP p1 mn mx) →
      v = .vDouble x → (x < mn ∨ x > mx) →
      validateProperty chain p v = .error .ERange) ∧
    (∀ p1 mn mx x, findDeclChain chain p = some (.intP p1 mn mx) →
      v = .vInt x → (x < mn ∨ x > mx) →
      validateProperty chain p v = .error .ERange) ∧
    (∀ p1 cap o, findDeclChain chain p = some (.objectP p1 cap) →
      v = .vObject (some o) → cap ∉ o.caps →
      validateProperty chain p v = .error .EHandleType) ∧
    (∀ e, validateProperty chain p v = .error e →
      externalSetProperty chain st p v = (st, some e) ∧
      getProperty chain (externalSetProperty chain st p v).1 p =
        getProperty chain st p) := by
  refine ⟨?_, ?_, ?_, ?_, ?_⟩
  · intro d hd htag
    rw [validateProperty_eq_findDeclChain, hd]
    exact validateOne_tag_mismatch d v htag
  · intro p1 mn mx x hd hv hrange
    rw [validateProperty_eq_findDeclChain, hd, hv]
    simp only [validateOne]
    rw [if_pos hrange]
  · intro p1 mn mx x hd hv hrange
    rw [validateProperty_eq_findDeclChain, hd, hv]
    simp only [validateOne]
    rw [if_pos hrange]
  · intro p1 cap o hd hv hcap
    rw [validateProperty_eq_findDeclChain, hd, hv]
    simp only [validateOne]
    rw [if_neg hcap]
  · intro e he
    have hext : externalSetProperty chain st p v = (st, some e) := by
      rw [externalSetProperty, he]
    exact ⟨hext, by rw [hext]⟩

theorem c6_validateProperty_errors_witness :
    validateProperty demoChain SYZ_P_GAIN (.vDouble (-1)) = .error .ERange ∧
    externalSetProperty demoChain (fun _ => .vDouble 1) SYZ_P_GAIN
      (.vDouble (-1)) = (fun _ => .vDouble 1, some .ERange) ∧
    getProperty demoChain
      (externalSetProperty demoChain (fun _ => .vDouble 1) SYZ_P_GAIN
        (.vDouble (-1))).1 SYZ_P_GAIN =
      getProperty demoChain (fun _ => .vDouble 1) SYZ_P_GAIN := by
  have h := c6_validateProperty_errors demoChain SYZ_P_GAIN (.vDouble (-1))
    (fun _ => .vDouble 1)
  have hrange := h.2.1 SYZ_P_GAIN 0 2 (-1) (by decide) rfl (Or.inl (by decide))
  exact ⟨hrange, (h.2.2.2.2 _ hrange).1, (h.2.2.2.2 _ hrange).2⟩

/-- A demonstration filter-design primitive standing in for
`designAudioEqLowpass` (a pure function, per the spec). -/
def demoDesign : ℚ → ℚ → BiquadFilterDef :=
  fun nf q => { num_coefs0 := nf, num_coefs1 := q, num_coefs2 := 0,
                den_coefs0 := 0, den_coefs1 := 0, gain := 1 }

/-- Claim C8: `syz_designBiquadLowpass` is deterministic and its output is a
pure function of the frequency normalised by `SR = 44100` and of `q`: any
two argument pairs with the same normalised frequency and the same `q` yield
identical `syz_BiquadConfig` coefficients, and the result is exactly
`convertBiquadDef (designAudioEqLowpass (frequency / 44100) q)`. -/
theorem c8_design_lowpass_deterministic (design : ℚ → ℚ → BiquadFilterDef)
    (f f1 q q1 : ℚ) (hf : f / 44100 = f1 / 44100) (hq : q = q1) :
    syz_designBiquadLowpass design f q = syz_designBiquadLowpass design f1 q1 ∧
    syz_designBiquadLowpass design f q =
      convertBiquadDef (design (f / 44100) q) := by
  constructor
  · rw [syz_designBiquadLowpass, syz_designBiquadLowpass,
      show config.SR = (44100 : ℚ) from rfl, hf, hq]
  · rfl

theorem c8_design_lowpass_deterministic_witness :
    syz_designBiquadLowpass demoDesign 1000 (1 / 2) =
      syz_designBiquadLowpass demoDesign 1000 (1 / 2) ∧
    syz_designBiquadLowpass demoDesign 1000 (1 / 2) =
      convertBiquadDef (demoDesign (1000 / 44100) (1 / 2)) :=
  c8_design_lowpass_deterministic demoDesign 1000 1000 (1 / 2) (1 / 2) rfl rfl

end Synthizer
